import Mathlib

/-! PizzaPartV1: the scene controller (js/scene.js) and the music controller (js/audio.js)

A shallow embedding of the two modules. JavaScript numbers are taken as exact
rationals. Module-level variables become fields of a state record and each
handler or exported function becomes a function from state to state.
Calls into the audio library are recorded in a log kept in the state, and what
the library reports back (context state, sequence state, current time) is an
explicit argument of the call that reads it.
-/

namespace Scene

/-! ## js/scene.js: data -/

/-- Lower clamp bound of the camera distance: `const MIN_ZOOM_Z = 3`. -/
def MIN_ZOOM_Z : ℚ := 3

/-- Upper clamp bound of the camera distance: `const MAX_ZOOM_Z = 20`. -/
def MAX_ZOOM_Z : ℚ := 20

/-- Cheese colours: `const glazeColors`. -/
def glazeColors : List Nat := [0xFFD700, 0xFFA500, 0xFFF8DC, 0xFFE4B5]

/-- Crust colours: `const donutBaseColors`; `none` is the JavaScript `null` entry. -/
def donutBaseColors : List (Option Nat) :=
  [some 0x5C3317, some 0xDEB887, some 0x3D2B1F, some 0xF5DEB3, some 0x8B4513, none]

/-- Topping colours: `const pepperoniColors`. -/
def pepperoniColors : List Nat := [0xBC4A3C, 0x8B0000, 0xCCCCCC, 0x006400]

/-- One entry of a `touches` list. -/
structure Touch where
  clientX : ℚ
  clientY : ℚ
  deriving DecidableEq, Repr

/-- The fields of a pointer event that the handlers read. `touches` is `none`
when the event object has no such property (as for a DOM `PointerEvent`). -/
structure PointerEvent where
  pointerId : Int
  clientX : ℚ
  clientY : ℚ
  touches : Option (List Touch)
  deriving DecidableEq, Repr

/-- The fields of a `THREE.MeshStandardMaterial` that the module writes. -/
structure Material where
  color : Nat
  wireframe : Bool
  deriving DecidableEq, Repr

/-- The module-level variables of js/scene.js together with the pieces of the
camera, the mesh group and the zoom slider that the module mutates. The event
handlers are registered by `initThreeJS` only after the camera and the mesh
group have been created, so `cameraZ` (`camera.position.z`) and the rotation
are plain fields. -/
structure SceneState where
  glazeMaterial : Option Material
  donutMaterial : Option Material
  pepperoniMaterial : Option Material
  hasDonutGroup : Bool
  hasRenderer : Bool
  isDragging : Bool
  previousPointerX : ℚ
  previousPointerY : ℚ
  initialPinchDistance : ℚ
  currentCameraZ : ℚ
  isThreeJSInitialized : Bool
  donutSpinSpeed : ℚ
  currentGlazeColorIndex : Nat
  currentDonutBaseColorIndex : Nat
  currentPepperoniColorIndex : Nat
  pointers : List PointerEvent
  cameraZ : ℚ
  sliderValue : ℚ
  rotationX : ℚ
  rotationY : ℚ
  deriving DecidableEq, Repr

/-- The state in which `initThreeJS` leaves the module when it runs to
completion on a freshly loaded module: every `let` still has its declared
initial value, the three materials carry entry 0 of their palettes, and the
slider mirrors `currentCameraZ`. -/
def initialScene : SceneState where
  glazeMaterial := some ⟨0xFFD700, false⟩
  donutMaterial := some ⟨0x5C3317, false⟩
  pepperoniMaterial := some ⟨0xBC4A3C, false⟩
  hasDonutGroup := true
  hasRenderer := true
  isDragging := false
  previousPointerX := 0
  previousPointerY := 0
  initialPinchDistance := 0
  currentCameraZ := 10
  isThreeJSInitialized := true
  donutSpinSpeed := 5 / 1000
  currentGlazeColorIndex := 0
  currentDonutBaseColorIndex := 0
  currentPepperoniColorIndex := 0
  pointers := []
  cameraZ := 10
  sliderValue := 10
  rotationX := 0
  rotationY := 0

/-! ## js/scene.js: pointer, wheel and slider handlers -/

/-- `getPinchDistance(e)`. `Math.sqrt` is the parameter `sqrt`. -/
def getPinchDistance (sqrt : ℚ → ℚ) (e : PointerEvent) : ℚ :=
  match e.touches with
  | some [t0, t1] =>
    let dx := t0.clientX - t1.clientX
    let dy := t0.clientY - t1.clientY
    sqrt (dx * dx + dy * dy)
  | _ => 0

/-- `onPointerDown(e)`. -/
def onPointerDown (e : PointerEvent) (s : SceneState) : SceneState :=
  let s1 := { s with pointers := s.pointers ++ [e] }
  if s1.pointers.length = 1 then
    { s1 with isDragging := true, previousPointerX := e.clientX, previousPointerY := e.clientY }
  else s1

/-- The first three lines of `onPointerMove`: the stored record of the pointer
with the same id, if there is one, is replaced by the new event. -/
def updatePointer (e : PointerEvent) (ps : List PointerEvent) : List PointerEvent :=
  let index := ps.findIdx (fun p => p.pointerId == e.pointerId)
  if index < ps.length then ps.set index e else ps

/-- The drag block that ends `onPointerMove`. -/
def dragRotate (e : PointerEvent) (s : SceneState) : SceneState :=
  if s.isDragging ∧ s.pointers.length = 1 then
    let deltaX := e.clientX - s.previousPointerX
    let deltaY := e.clientY - s.previousPointerY
    { s with
      rotationY := s.rotationY + deltaX * (1 / 100)
      rotationX := s.rotationX + deltaY * (1 / 100)
      previousPointerX := e.clientX
      previousPointerY := e.clientY }
  else s

/-- `onPointerMove(e)`. -/
def onPointerMove (sqrt : ℚ → ℚ) (e : PointerEvent) (s : SceneState) : SceneState :=
  let s1 := { s with pointers := updatePointer e s.pointers }
  if s1.pointers.length = 2 ∧ s1.initialPinchDistance > 0 then
    let currentPinchDistance := getPinchDistance sqrt e
    if currentPinchDistance = 0 then s1
    else
      let zoomFactor := s1.initialPinchDistance / currentPinchDistance
      let newZ := max MIN_ZOOM_Z (min MAX_ZOOM_Z (s1.currentCameraZ * zoomFactor))
      dragRotate e
        { s1 with
          cameraZ := newZ
          sliderValue := newZ
          initialPinchDistance := currentPinchDistance
          currentCameraZ := newZ }
  else dragRotate e s1

/-- `onPointerUp(e)`. -/
def onPointerUp (e : PointerEvent) (s : SceneState) : SceneState :=
  let s1 := { s with pointers := s.pointers.filter (fun p => p.pointerId != e.pointerId) }
  let s2 := if s1.isDragging ∧ s1.pointers.length = 0 then { s1 with isDragging := false } else s1
  if s2.pointers.length < 2 then { s2 with initialPinchDistance := 0 } else s2

/-- `onMouseWheel(e)`, with `e.deltaY` as the argument. -/
def onMouseWheel (deltaY : ℚ) (s : SceneState) : SceneState :=
  let newZ := max MIN_ZOOM_Z (min MAX_ZOOM_Z (s.currentCameraZ + deltaY * (2 / 100)))
  { s with cameraZ := newZ, sliderValue := newZ, currentCameraZ := newZ }

/-- Modelled from the spec: the zoom slider element is declared outside the
source files; the spec names it a zoom-range-input element. A range input with
bounds `lo` and `hi` that is given the value `v` holds `v` when it lies between
the bounds and the nearer bound otherwise. Rounding to the step is left out: it
picks a point of the same interval, so every value of the interval is allowed
here. -/
def rangeInputValue (lo hi v : ℚ) : ℚ :=
  max lo (min hi v)

/-- The `zoomSlider.oninput` handler installed by `initThreeJS`, run after the
slider is given `value`. By then `initThreeJS` has set `zoomSlider.min =
MIN_ZOOM_Z` and `zoomSlider.max = MAX_ZOOM_Z`, so the slider holds
`rangeInputValue MIN_ZOOM_Z MAX_ZOOM_Z value`, and that is the number
`parseFloat(dom.glazery.zoomSlider.value)` yields as `newZ`. -/
def zoomSliderInput (value : ℚ) (s : SceneState) : SceneState :=
  let s1 := { s with sliderValue := rangeInputValue MIN_ZOOM_Z MAX_ZOOM_Z value }
  if !s1.isThreeJSInitialized then s1
  else
    let newZ := s1.sliderValue
    { s1 with cameraZ := newZ, currentCameraZ := newZ }

/-- The inputs that the canvas listeners and the zoom slider deliver. -/
inductive SceneEvent where
  | pointerDown (e : PointerEvent)
  | pointerMove (e : PointerEvent)
  | pointerUp (e : PointerEvent)
  | wheel (deltaY : ℚ)
  | sliderInput (value : ℚ)
  deriving DecidableEq, Repr

/-- Dispatch of one input to its handler. -/
def handle (sqrt : ℚ → ℚ) (s : SceneState) : SceneEvent → SceneState
  | .pointerDown e => onPointerDown e s
  | .pointerMove e => onPointerMove sqrt e s
  | .pointerUp e => onPointerUp e s
  | .wheel deltaY => onMouseWheel deltaY s
  | .sliderInput value => zoomSliderInput value s

/-- The state after a sequence of inputs, handled in order. -/
def runEvents (sqrt : ℚ → ℚ) (s : SceneState) (evs : List SceneEvent) : SceneState :=
  evs.foldl (handle sqrt) s

/-- A stand-in for `Math.sqrt` that is exact on squares of rationals; used to
evaluate the handlers on concrete events. -/
def sqrtExact (q : ℚ) : ℚ := (Nat.sqrt q.num.toNat : ℚ) / (Nat.sqrt q.den : ℚ)

/-- The camera distance lies within the clamp bounds. -/
def zoomInRange (s : SceneState) : Prop :=
  MIN_ZOOM_Z ≤ s.currentCameraZ ∧ s.currentCameraZ ≤ MAX_ZOOM_Z ∧
    MIN_ZOOM_Z ≤ s.cameraZ ∧ s.cameraZ ≤ MAX_ZOOM_Z

/-! ## js/scene.js: animation and palettes -/

/-- The decay block of `animate`, on the spin speed alone. -/
def decaySpinSpeed (speed : ℚ) : ℚ :=
  if speed > 5 / 1000 then
    let speed1 := speed * (95 / 100)
    if speed1 < 6 / 1000 then 5 / 1000 else speed1
  else speed

/-- `animate()`: one frame. Rendering does not touch the module state. -/
def animate (s : SceneState) : SceneState :=
  if s.hasDonutGroup ∧ s.hasRenderer then
    { s with
      rotationY := s.rotationY + s.donutSpinSpeed
      donutSpinSpeed := decaySpinSpeed s.donutSpinSpeed }
  else s

/-- `setDonutSpinSpeed(speed)`. -/
def setDonutSpinSpeed (speed : ℚ) (s : SceneState) : SceneState :=
  { s with donutSpinSpeed := speed }

/-- `material.color.set(value)` where `value` is a palette entry read by
index; an index outside the palette reads `undefined`, which `set` ignores. -/
def setColor (m : Material) (value : Option Nat) : Material :=
  match value with
  | some c => { m with color := c }
  | none => m

/-- `changeGlazeColor()`. -/
def changeGlazeColor (s : SceneState) : SceneState :=
  match s.glazeMaterial with
  | some m =>
    let i := (s.currentGlazeColorIndex + 1) % glazeColors.length
    { s with currentGlazeColorIndex := i, glazeMaterial := some (setColor m glazeColors[i]?) }
  | none => s

/-- `changeDonutBaseColor()`. -/
def changeDonutBaseColor (s : SceneState) : SceneState :=
  match s.donutMaterial with
  | some m =>
    let i := (s.currentDonutBaseColorIndex + 1) % donutBaseColors.length
    let m1 :=
      match donutBaseColors[i]? with
      | some none => { m with wireframe := true, color := 0xF5E6C1 }
      | some (some c) => { m with wireframe := false, color := c }
      | none => { m with wireframe := false }
    { s with currentDonutBaseColorIndex := i, donutMaterial := some m1 }
  | none => s

/-- `changeSprinkleColor()`. -/
def changeSprinkleColor (s : SceneState) : SceneState :=
  match s.pepperoniMaterial with
  | some m =>
    let i := (s.currentPepperoniColorIndex + 1) % pepperoniColors.length
    { s with
      currentPepperoniColorIndex := i
      pepperoniMaterial := some (setColor m pepperoniColors[i]?) }
  | none => s

/-- The cheese material exists and shows the palette entry at the current index. -/
def glazeApplied (s : SceneState) : Prop :=
  ∃ m, s.glazeMaterial = some m ∧ glazeColors[s.currentGlazeColorIndex]? = some m.color

/-- The topping material exists and shows the palette entry at the current index. -/
def pepperoniApplied (s : SceneState) : Prop :=
  ∃ m, s.pepperoniMaterial = some m ∧
    pepperoniColors[s.currentPepperoniColorIndex]? = some m.color

/-- The crust material exists and shows what `changeDonutBaseColor` applies for
the current index: the colour of the entry with wireframe off, or wireframe on
with the tint 0xF5E6C1 at the `null` entry. -/
def crustApplied (s : SceneState) : Prop :=
  ∃ m, s.donutMaterial = some m ∧
    ((donutBaseColors[s.currentDonutBaseColorIndex]? = some none ∧
        m.wireframe = true ∧ m.color = 0xF5E6C1) ∨
      (donutBaseColors[s.currentDonutBaseColorIndex]? = some (some m.color) ∧
        m.wireframe = false))

/-! ## js/scene.js: topping placement -/

/-- The candidate topping offsets of `createSprinkles`: `const positions`. The
number type is a parameter so that the same definition can be run over the
rationals and read over the reals. -/
def sprinklePositions (K : Type) [LinearOrderedField K] : List (K × K) :=
  [(15 / 10, 5 / 10), (18 / 10, -(2 / 10)), (25 / 10, 8 / 10), (22 / 10, -(9 / 10)),
    (28 / 10, 0)]

/-- The placement test inside `positions.forEach` of `createSprinkles`.
`Math.atan2`, `Math.sqrt` and `Math.PI` are the parameters `atan2`, `sqrt`, `pi`. -/
def withinSlice {K : Type} [LinearOrderedField K] (atan2 : K → K → K) (sqrt : K → K) (pi : K)
    (pos : K × K) : Bool :=
  let angle := atan2 pos.2 pos.1
  let distance := sqrt (pos.1 * pos.1 + pos.2 * pos.2)
  decide (distance < 32 / 10 ∧ angle > -pi / 7 ∧ angle < pi / 7)

/-- `createSprinkles()`: the offsets of the topping meshes that the call adds to
the group and pushes to `sprinkleMeshes`, in order. (The material it creates is
the `pepperoniMaterial` of `initialScene`.) -/
def createSprinkles {K : Type} [LinearOrderedField K] (atan2 : K → K → K) (sqrt : K → K)
    (pi : K) : List (K × K) :=
  (sprinklePositions K).filter (withinSlice atan2 sqrt pi)

end Scene

namespace Audio

/-! ## js/audio.js: data -/

/-- One cell of a step sequence: `null`, a pitch name, or an array of pitch names. -/
inductive Step where
  | rest
  | note (pitch : String)
  | chord (pitches : List String)
  deriving DecidableEq, Repr

/-- The six synthesiser variables of the module. -/
inductive SynthName where
  | waltzBass
  | waltzChords
  | violinMelody
  | operaVoice
  | cuteClickSound
  | purchaseSound
  deriving DecidableEq, Repr

/-- The four sequence variables of the module. -/
inductive SequenceName where
  | bassSequence
  | chordSequence
  | violinSequence
  | operaSequence
  deriving DecidableEq, Repr

/-- A constructed synthesiser: the library class and the volume set on it. -/
structure Synth where
  kind : String
  volume : Int
  deriving DecidableEq, Repr

/-- The arguments of a `new Tone.Sequence(callback, events, subdivision)`; the
callback is given by the voice it triggers and the note duration it passes. -/
structure Sequence where
  voice : SynthName
  duration : String
  events : List Step
  subdivision : String
  deriving DecidableEq, Repr

/-- Calls into the audio library, in the order the module makes them. -/
inductive Effect where
  | toneStart
  | setBpm (value : Nat)
  | setTimeSignature (beats : Nat) (unit : Nat)
  | create (cls : String)
  | transportStart
  | transportStop
  | sequenceStart (name : SequenceName) (time : Nat)
  | sequenceStop (name : SequenceName) (time : Nat)
  | triggerAttackRelease (synth : SynthName) (pitch : String) (duration : String) (time : ℚ)
  deriving DecidableEq, Repr

/-- What the library reports when a call reads it: whether
`Tone.context.state` is `running`, the value of `Tone.now()`, and for each
sequence whether its `state` is `stopped`. -/
structure ToneEnv where
  contextRunning : Bool
  now : ℚ
  sequenceStopped : SequenceName → Bool

/-- The module-level variables of js/audio.js, the shared flag
`State.uiState.isSfxMuted`, the text of the two toggle buttons, and the log of
library calls made so far. -/
structure AudioState where
  waltzBass : Option Synth
  waltzChords : Option Synth
  violinMelody : Option Synth
  operaVoice : Option Synth
  bassSequence : Option Sequence
  chordSequence : Option Sequence
  violinSequence : Option Sequence
  operaSequence : Option Sequence
  isMusicPlaying : Bool
  isAudioInitialized : Bool
  purchaseSound : Option Synth
  cuteClickSound : Option Synth
  isSfxMuted : Bool
  sfxToggleButtonText : String
  musicToggleButtonText : String
  log : List Effect
  deriving DecidableEq, Repr

/-- The module as loaded. The initial mute flag and button texts come from
outside the module and are parameters. -/
def initialAudio (isSfxMuted : Bool) (sfxText musicText : String) : AudioState where
  waltzBass := none
  waltzChords := none
  violinMelody := none
  operaVoice := none
  bassSequence := none
  chordSequence := none
  violinSequence := none
  operaSequence := none
  isMusicPlaying := false
  isAudioInitialized := false
  purchaseSound := none
  cuteClickSound := none
  isSfxMuted := isSfxMuted
  sfxToggleButtonText := sfxText
  musicToggleButtonText := musicText
  log := []

/-- The events array of `bassSequence`. -/
def bassEvents : List Step :=
  [.note "G2", .rest, .rest, .note "D2", .rest, .rest,
   .note "C2", .rest, .rest, .note "G2", .rest, .rest]

/-- The events array of `chordSequence`. -/
def chordEvents : List Step :=
  [.rest, .chord ["B3", "D4"], .chord ["B3", "D4"],
   .rest, .chord ["A3", "C#4"], .chord ["A3", "C#4"],
   .rest, .chord ["C4", "E4"], .chord ["C4", "E4"],
   .rest, .chord ["B3", "D4"], .chord ["B3", "D4"]]

/-- The events array of `violinSequence`. -/
def violinEvents : List Step :=
  [.note "G4", .note "B4", .note "D5",
   .note "C5", .note "B4", .note "A4",
   .note "A4", .note "G4", .note "F#4",
   .note "G4", .rest, .rest,
   .note "G4", .note "B4", .note "D5",
   .note "C5", .note "B4", .note "A4",
   .note "B4", .note "C5", .note "A4",
   .note "G4", .rest, .rest]

/-- The events array of `operaSequence`. -/
def operaEvents : List Step :=
  [.rest, .rest, .rest, .rest, .rest, .rest, .rest, .rest, .rest, .rest, .rest, .rest,
   .note "D5", .rest, .rest,
   .note "E5", .rest, .rest,
   .note "C5", .rest, .rest,
   .note "B4", .rest, .rest,
   .note "D5", .rest, .rest, .rest, .rest, .rest,
   .note "C5", .rest, .rest,
   .note "B4", .rest, .rest,
   .note "A4", .rest, .rest,
   .note "G4", .rest, .rest]

/-- The library calls of the body of `initAudio`, in source order (node
connections and the two vibrato starts are left out). -/
def initAudioCalls : List Effect :=
  [.setBpm 120, .setTimeSignature 3 4, .create "Limiter",
   .create "MonoSynth", .create "PolySynth", .create "LFO", .create "MonoSynth",
   .create "LFO", .create "MonoSynth",
   .create "Sequence", .create "Sequence", .create "Sequence", .create "Sequence",
   .create "FMSynth", .create "Synth"]

/-! ## js/audio.js: functions -/

/-- `initAudio()`. -/
def initAudio (st : AudioState) : AudioState :=
  if st.isAudioInitialized then st
  else
    { st with
      waltzBass := some ⟨"MonoSynth", 0⟩
      waltzChords := some ⟨"PolySynth", -8⟩
      violinMelody := some ⟨"MonoSynth", -4⟩
      operaVoice := some ⟨"MonoSynth", -6⟩
      bassSequence := some ⟨.waltzBass, "4n", bassEvents, "4n"⟩
      chordSequence := some ⟨.waltzChords, "8n", chordEvents, "4n"⟩
      violinSequence := some ⟨.violinMelody, "4n", violinEvents, "4n"⟩
      operaSequence := some ⟨.operaVoice, "2n", operaEvents, "4n"⟩
      cuteClickSound := some ⟨"FMSynth", 0⟩
      purchaseSound := some ⟨"Synth", 0⟩
      isAudioInitialized := true
      log := st.log ++ initAudioCalls }

/-- The two guards that open `playSoundEffect` (after the mute check) and
`toggleMusic`: start the context unless it is running, build the audio graph
unless it is built. -/
def ensureAudio (env : ToneEnv) (st : AudioState) : AudioState :=
  let s1 := if !env.contextRunning then { st with log := st.log ++ [.toneStart] } else st
  if !s1.isAudioInitialized then initAudio s1 else s1

/-- A `synth.triggerAttackRelease(pitch, duration, time)` call on one of the
module variables; `none` is the TypeError raised when the variable is still
undefined. -/
def triggerAttackRelease (synth : Option Synth) (name : SynthName) (pitch duration : String)
    (time : ℚ) (st : AudioState) : Option AudioState :=
  match synth with
  | some _ => some { st with log := st.log ++ [.triggerAttackRelease name pitch duration time] }
  | none => none

/-- `playSoundEffect(sound)`. -/
def playSoundEffect (env : ToneEnv) (sound : String) (st : AudioState) : Option AudioState :=
  if st.isSfxMuted then some st
  else
    let s1 := ensureAudio env st
    let now := env.now
    let offset : ℚ := 1 / 1000
    let r1 :=
      if sound = "click" then
        triggerAttackRelease s1.cuteClickSound .cuteClickSound "C6" "32n" (now + offset) s1
      else some s1
    r1.bind fun s2 =>
      if sound = "purchase" then
        (triggerAttackRelease s2.purchaseSound .purchaseSound "C5" "16n" (now + offset) s2).bind
          fun s3 =>
            (triggerAttackRelease s3.purchaseSound .purchaseSound "E5" "16n"
              (now + 5 / 100 + offset) s3).bind
              fun s4 =>
                triggerAttackRelease s4.purchaseSound .purchaseSound "G5" "16n"
                  (now + 1 / 10 + offset) s4
      else some s2

/-- `toggleSfx(dom)`. -/
def toggleSfx (env : ToneEnv) (st : AudioState) : Option AudioState :=
  let s1 := { st with isSfxMuted := !st.isSfxMuted }
  let s2 := { s1 with sfxToggleButtonText := if s1.isSfxMuted then "🔇" else "🔊" }
  if !s2.isSfxMuted then playSoundEffect env "click" s2 else some s2

/-- `if (seq) seq.stop(0)`. -/
def stopSequence (seq : Option Sequence) (name : SequenceName) (st : AudioState) : AudioState :=
  match seq with
  | some _ => { st with log := st.log ++ [.sequenceStop name 0] }
  | none => st

/-- `if (seq && seq.state === 'stopped') seq.start(0)`. -/
def startSequence (env : ToneEnv) (seq : Option Sequence) (name : SequenceName)
    (st : AudioState) : AudioState :=
  match seq with
  | some _ =>
    if env.sequenceStopped name then { st with log := st.log ++ [.sequenceStart name 0] } else st
  | none => st

/-- `toggleMusic(dom)`. -/
def toggleMusic (env : ToneEnv) (st : AudioState) : AudioState :=
  let s1 := ensureAudio env st
  let s2 :=
    if s1.isMusicPlaying then
      let a := { s1 with log := s1.log ++ [.transportStop], musicToggleButtonText := "🔇" }
      let b := stopSequence a.bassSequence .bassSequence a
      let c := stopSequence b.chordSequence .chordSequence b
      let d := stopSequence c.violinSequence .violinSequence c
      stopSequence d.operaSequence .operaSequence d
    else
      let a := { s1 with log := s1.log ++ [.transportStart] }
      let b := startSequence env a.bassSequence .bassSequence a
      let c := startSequence env b.chordSequence .chordSequence b
      let d := startSequence env c.violinSequence .violinSequence c
      let e := startSequence env d.operaSequence .operaSequence d
      { e with musicToggleButtonText := "🎵" }
  { s2 with isMusicPlaying := !s2.isMusicPlaying }

/-- A call of one of the three exported functions. -/
inductive Call where
  | playSoundEffect (sound : String)
  | toggleSfx
  | toggleMusic
  deriving DecidableEq, Repr

/-- One exported call, made while the library reports `env`. -/
def perform (env : ToneEnv) (c : Call) (st : AudioState) : Option AudioState :=
  match c with
  | .playSoundEffect sound => playSoundEffect env sound st
  | .toggleSfx => toggleSfx env st
  | .toggleMusic => some (toggleMusic env st)

/-- A sequence of exported calls in order; `none` once a call raises. -/
def performAll : List (ToneEnv × Call) → AudioState → Option AudioState
  | [], st => some st
  | (env, c) :: rest, st => (perform env c st).bind (performAll rest)

/-- How many times the body of `initAudio` has run: the number of limiters
constructed, the limiter being built once per run of the body and nowhere else. -/
def initAudioRuns (st : AudioState) : Nat :=
  st.log.count (.create "Limiter")

/-- The variables assigned by `initAudio` are all defined. -/
def graphBuilt (st : AudioState) : Prop :=
  st.waltzBass.isSome ∧ st.waltzChords.isSome ∧ st.violinMelody.isSome ∧ st.operaVoice.isSome ∧
    st.bassSequence.isSome ∧ st.chordSequence.isSome ∧ st.violinSequence.isSome ∧
    st.operaSequence.isSome ∧ st.purchaseSound.isSome ∧ st.cuteClickSound.isSome

/-- An environment in which the context is running and every sequence reports `stopped`. -/
def quietEnv : ToneEnv where
  contextRunning := true
  now := 0
  sequenceStopped := fun _ => true

/-- The voices triggered so far: the `triggerAttackRelease` entries of a log. -/
def triggered (log : List Effect) : List Effect :=
  log.filter fun e =>
    match e with
    | .triggerAttackRelease _ _ _ _ => true
    | _ => false

/-- What holds of the module in every state the exported functions reach: once
the flag is set the variables assigned by `initAudio` are defined and its body
has run once, and while the flag is clear the body has not run. -/
def AudioInv (st : AudioState) : Prop :=
  (st.isAudioInitialized = true → graphBuilt st ∧ initAudioRuns st = 1) ∧
    (st.isAudioInitialized = false → initAudioRuns st = 0)

end Audio

/-! ## Theorems: zoom -/

namespace Scene

theorem clamp_ge (x : ℚ) : MIN_ZOOM_Z ≤ max MIN_ZOOM_Z (min MAX_ZOOM_Z x) :=
  le_max_left _ _

theorem clamp_le (x : ℚ) : max MIN_ZOOM_Z (min MAX_ZOOM_Z x) ≤ MAX_ZOOM_Z :=
  max_le (by norm_num [MIN_ZOOM_Z, MAX_ZOOM_Z]) (min_le_left _ _)

theorem dragRotate_currentCameraZ (e : PointerEvent) (s : SceneState) :
    (dragRotate e s).currentCameraZ = s.currentCameraZ := by
  unfold dragRotate
  split <;> rfl

theorem dragRotate_cameraZ (e : PointerEvent) (s : SceneState) :
    (dragRotate e s).cameraZ = s.cameraZ := by
  unfold dragRotate
  split <;> rfl

theorem zoomInRange_dragRotate (e : PointerEvent) (s : SceneState) (h : zoomInRange s) :
    zoomInRange (dragRotate e s) := by
  unfold zoomInRange at *
  rw [dragRotate_currentCameraZ, dragRotate_cameraZ]
  exact h

theorem zoomInRange_onPointerDown (e : PointerEvent) (s : SceneState) (h : zoomInRange s) :
    zoomInRange (onPointerDown e s) := by
  unfold onPointerDown
  simp only
  split <;> exact h

theorem zoomInRange_onPointerMove (sqrt : ℚ → ℚ) (e : PointerEvent) (s : SceneState)
    (h : zoomInRange s) : zoomInRange (onPointerMove sqrt e s) := by
  unfold onPointerMove
  simp only
  split
  · split
    · exact h
    · apply zoomInRange_dragRotate
      exact ⟨clamp_ge _, clamp_le _, clamp_ge _, clamp_le _⟩
  · exact zoomInRange_dragRotate e _ h

theorem zoomInRange_onPointerUp (e : PointerEvent) (s : SceneState) (h : zoomInRange s) :
    zoomInRange (onPointerUp e s) := by
  unfold onPointerUp
  simp only
  split <;> split <;> exact h

theorem zoomInRange_onMouseWheel (deltaY : ℚ) (s : SceneState) :
    zoomInRange (onMouseWheel deltaY s) :=
  ⟨clamp_ge _, clamp_le _, clamp_ge _, clamp_le _⟩

theorem zoomInRange_zoomSliderInput (value : ℚ) (s : SceneState) (h : zoomInRange s) :
    zoomInRange (zoomSliderInput value s) := by
  unfold zoomSliderInput rangeInputValue
  simp only
  split
  · exact h
  · exact ⟨clamp_ge _, clamp_le _, clamp_ge _, clamp_le _⟩

theorem zoomInRange_handle (sqrt : ℚ → ℚ) (s : SceneState) (ev : SceneEvent)
    (h : zoomInRange s) : zoomInRange (handle sqrt s ev) := by
  cases ev with
  | pointerDown e => exact zoomInRange_onPointerDown e s h
  | pointerMove e => exact zoomInRange_onPointerMove sqrt e s h
  | pointerUp e => exact zoomInRange_onPointerUp e s h
  | wheel deltaY => exact zoomInRange_onMouseWheel deltaY s
  | sliderInput value => exact zoomInRange_zoomSliderInput value s h

theorem zoomInRange_runEvents (sqrt : ℚ → ℚ) (evs : List SceneEvent) :
    ∀ s : SceneState, zoomInRange s → zoomInRange (runEvents sqrt s evs) := by
  induction evs with
  | nil => intro s h; exact h
  | cons ev rest ih =>
    intro s h
    exact ih (handle sqrt s ev) (zoomInRange_handle sqrt s ev h)

theorem zoomInRange_initialScene : zoomInRange initialScene := by
  unfold zoomInRange initialScene MIN_ZOOM_Z MAX_ZOOM_Z
  norm_num

theorem sqrtExact_ten_squared : sqrtExact (10 * 10) = 10 := by
  have h : Nat.sqrt 100 = 10 := Nat.sqrt_eq 10
  have h1 : Nat.sqrt 1 = 1 := Nat.sqrt_eq 1
  have h2 : (10 * 10 : ℚ) = 100 := by norm_num
  rw [h2]
  simp [sqrtExact, h, h1]

/-- C1: for every finite sequence of inputs applied from the initial state
(camera distance 10) - wheel events with any deltaY, pointer-down, pointer-move
and pointer-up events, and zoom-slider input events in which the slider is
given any value - the stored camera distance `currentCameraZ` and
`camera.position.z` after every input lie in [MIN_ZOOM_Z, MAX_ZOOM_Z] = [3, 20],
whatever `Math.sqrt` returns. Moreover each single input keeps the bounds from
any state that has them, also from a state with two active pointers and a
positive `initialPinchDistance`, where the pinch branch of `onPointerMove` runs. -/
theorem zoom_stays_in_range :
    (∀ (sqrt : ℚ → ℚ) (evs : List SceneEvent) (k : Nat),
        zoomInRange (runEvents sqrt initialScene (evs.take k))) ∧
      ∀ (sqrt : ℚ → ℚ) (s : SceneState) (ev : SceneEvent),
        zoomInRange s → zoomInRange (handle sqrt s ev) :=
  ⟨fun sqrt evs k =>
      zoomInRange_runEvents sqrt (evs.take k) initialScene zoomInRange_initialScene,
    zoomInRange_handle⟩

/-- Witness for C1: in a state with two active pointers 100 apart and
`initialPinchDistance` 100, a move that brings the touches 10 apart runs the
pinch branch, asks for distance 100 and is clamped to 20; and from the initial
state a wheel event, a slider given 25 and a large negative wheel event leave
the distance at 20 and then 3. -/
theorem zoom_stays_in_range_witness :
    zoomInRange
        { initialScene with
          pointers := [⟨1, 0, 0, none⟩, ⟨2, 100, 0, none⟩], initialPinchDistance := 100 } ∧
      zoomInRange
        (handle sqrtExact
          { initialScene with
            pointers := [⟨1, 0, 0, none⟩, ⟨2, 100, 0, none⟩], initialPinchDistance := 100 }
          (.pointerMove ⟨2, 10, 0, some [⟨0, 0⟩, ⟨10, 0⟩]⟩)) ∧
      (handle sqrtExact
          { initialScene with
            pointers := [⟨1, 0, 0, none⟩, ⟨2, 100, 0, none⟩], initialPinchDistance := 100 }
          (.pointerMove ⟨2, 10, 0, some [⟨0, 0⟩, ⟨10, 0⟩]⟩)).currentCameraZ = 20 ∧
      (runEvents sqrtExact initialScene [.wheel 1000, .sliderInput 25]).currentCameraZ = 20 ∧
      (runEvents sqrtExact initialScene
        [.wheel 1000, .sliderInput 25, .wheel (-4000)]).currentCameraZ = 3 ∧
      ∀ k, zoomInRange
        (runEvents sqrtExact initialScene
          ([SceneEvent.wheel 1000, .sliderInput 25, .wheel (-4000)].take k)) :=
  have h0 : zoomInRange
      { initialScene with
        pointers := [⟨1, 0, 0, none⟩, ⟨2, 100, 0, none⟩], initialPinchDistance := 100 } :=
    zoomInRange_initialScene
  ⟨h0, zoom_stays_in_range.2 sqrtExact _ _ h0,
    by
      simp [handle, onPointerMove, initialScene, updatePointer, List.findIdx_cons,
        getPinchDistance, dragRotate_currentCameraZ, MIN_ZOOM_Z, MAX_ZOOM_Z,
        sqrtExact_ten_squared]
      norm_num,
    by decide,
    by
      simp [runEvents, handle, onMouseWheel, zoomSliderInput, rangeInputValue, initialScene,
        MIN_ZOOM_Z, MAX_ZOOM_Z]
      norm_num,
    fun k => zoom_stays_in_range.1 sqrtExact _ k⟩

/-- C2 on the code: after two pointer-down events from the initial state, a
pointer-move event that doubles the inter-pointer distance (ratio of previous
to current distance 0.5) leaves the camera distance at 10, and so does a
second such move; the claim says 5 and then 3. This holds whatever the event
carries as `touches` and whatever `Math.sqrt` returns. -/
theorem pinch_half_ratio_leaves_distance (sqrt : ℚ → ℚ) (t1 t2 : Option (List Touch)) :
    (runEvents sqrt initialScene
        [.pointerDown ⟨1, 0, 0, none⟩, .pointerDown ⟨2, 100, 0, none⟩,
          .pointerMove ⟨2, 200, 0, t1⟩]).currentCameraZ = 10 ∧
      (runEvents sqrt initialScene
        [.pointerDown ⟨1, 0, 0, none⟩, .pointerDown ⟨2, 100, 0, none⟩,
          .pointerMove ⟨2, 200, 0, t1⟩, .pointerMove ⟨2, 400, 0, t2⟩]).currentCameraZ = 10 := by
  constructor <;>
    simp [runEvents, handle, onPointerDown, onPointerMove, initialScene, updatePointer,
      dragRotate, List.findIdx_cons]

end Scene

/-! ## Theorems: palettes -/

namespace Scene

theorem glazeApplied_changeGlazeColor (s : SceneState) (h : s.glazeMaterial.isSome) :
    glazeApplied (changeGlazeColor s) := by
  unfold changeGlazeColor
  cases hm : s.glazeMaterial with
  | none => simp [hm] at h
  | some m =>
    have hlt : (s.currentGlazeColorIndex + 1) % glazeColors.length < 4 :=
      Nat.mod_lt _ (by decide)
    simp only
    generalize (s.currentGlazeColorIndex + 1) % glazeColors.length = j at hlt ⊢
    interval_cases j <;> simp [glazeApplied, glazeColors, setColor]

theorem changeGlazeColor_index (s : SceneState) (h : s.glazeMaterial.isSome) :
    (changeGlazeColor s).currentGlazeColorIndex
        = (s.currentGlazeColorIndex + 1) % glazeColors.length ∧
      (changeGlazeColor s).glazeMaterial.isSome := by
  unfold changeGlazeColor
  cases hm : s.glazeMaterial with
  | none => simp [hm] at h
  | some m => simp

theorem changeGlazeColor_iterate (s : SceneState) (h : s.glazeMaterial.isSome)
    (hi : s.currentGlazeColorIndex < glazeColors.length) (N : Nat) :
    (changeGlazeColor^[N] s).currentGlazeColorIndex
        = (s.currentGlazeColorIndex + N) % glazeColors.length ∧
      (changeGlazeColor^[N] s).glazeMaterial.isSome := by
  induction N with
  | zero => exact ⟨(Nat.mod_eq_of_lt hi).symm, h⟩
  | succ n ih =>
    rw [Function.iterate_succ_apply']
    obtain ⟨h1, h2⟩ := changeGlazeColor_index _ ih.2
    refine ⟨?_, h2⟩
    rw [h1, ih.1]
    have : glazeColors.length = 4 := rfl
    rw [this]
    omega

theorem changeGlazeColor_full_cycle (s : SceneState) (h : glazeApplied s) :
    changeGlazeColor^[glazeColors.length] s = s := by
  obtain ⟨m, hm, hc⟩ := h
  have hlt : s.currentGlazeColorIndex < 4 := (List.getElem?_eq_some.mp hc).1
  obtain ⟨gm, dm, pm, hg, hr, dr, px, py, ip, cz, ini, sp, gi, di, pi, ps, camz, sl, rx, ry⟩ := s
  obtain ⟨c, w⟩ := m
  simp only at hm hc hlt
  subst hm
  interval_cases gi <;> simp [glazeColors] at hc <;> subst hc <;>
    simp [glazeColors, changeGlazeColor, setColor]

theorem pepperoniApplied_changeSprinkleColor (s : SceneState) (h : s.pepperoniMaterial.isSome) :
    pepperoniApplied (changeSprinkleColor s) := by
  unfold changeSprinkleColor
  cases hm : s.pepperoniMaterial with
  | none => simp [hm] at h
  | some m =>
    have hlt : (s.currentPepperoniColorIndex + 1) % pepperoniColors.length < 4 :=
      Nat.mod_lt _ (by decide)
    simp only
    generalize (s.currentPepperoniColorIndex + 1) % pepperoniColors.length = j at hlt ⊢
    interval_cases j <;> simp [pepperoniApplied, pepperoniColors, setColor]

theorem changeSprinkleColor_index (s : SceneState) (h : s.pepperoniMaterial.isSome) :
    (changeSprinkleColor s).currentPepperoniColorIndex
        = (s.currentPepperoniColorIndex + 1) % pepperoniColors.length ∧
      (changeSprinkleColor s).pepperoniMaterial.isSome := by
  unfold changeSprinkleColor
  cases hm : s.pepperoniMaterial with
  | none => simp [hm] at h
  | some m => simp

theorem changeSprinkleColor_iterate (s : SceneState) (h : s.pepperoniMaterial.isSome)
    (hi : s.currentPepperoniColorIndex < pepperoniColors.length) (N : Nat) :
    (changeSprinkleColor^[N] s).currentPepperoniColorIndex
        = (s.currentPepperoniColorIndex + N) % pepperoniColors.length ∧
      (changeSprinkleColor^[N] s).pepperoniMaterial.isSome := by
  induction N with
  | zero => exact ⟨(Nat.mod_eq_of_lt hi).symm, h⟩
  | succ n ih =>
    rw [Function.iterate_succ_apply']
    obtain ⟨h1, h2⟩ := changeSprinkleColor_index _ ih.2
    refine ⟨?_, h2⟩
    rw [h1, ih.1]
    have : pepperoniColors.length = 4 := rfl
    rw [this]
    omega

theorem changeSprinkleColor_full_cycle (s : SceneState) (h : pepperoniApplied s) :
    changeSprinkleColor^[pepperoniColors.length] s = s := by
  obtain ⟨m, hm, hc⟩ := h
  have hlt : s.currentPepperoniColorIndex < 4 := (List.getElem?_eq_some.mp hc).1
  obtain ⟨gm, dm, pm, hg, hr, dr, px, py, ip, cz, ini, sp, gi, di, pi, ps, camz, sl, rx, ry⟩ := s
  obtain ⟨c, w⟩ := m
  simp only at hm hc hlt
  subst hm
  interval_cases pi <;> simp [pepperoniColors] at hc <;> subst hc <;>
    simp [pepperoniColors, changeSprinkleColor, setColor]

theorem crustApplied_changeDonutBaseColor (s : SceneState) (h : s.donutMaterial.isSome) :
    crustApplied (changeDonutBaseColor s) := by
  unfold changeDonutBaseColor
  cases hm : s.donutMaterial with
  | none => simp [hm] at h
  | some m =>
    have hlt : (s.currentDonutBaseColorIndex + 1) % donutBaseColors.length < 6 :=
      Nat.mod_lt _ (by decide)
    simp only
    generalize (s.currentDonutBaseColorIndex + 1) % donutBaseColors.length = j at hlt ⊢
    interval_cases j <;> simp [crustApplied, donutBaseColors]

theorem changeDonutBaseColor_index (s : SceneState) (h : s.donutMaterial.isSome) :
    (changeDonutBaseColor s).currentDonutBaseColorIndex
        = (s.currentDonutBaseColorIndex + 1) % donutBaseColors.length ∧
      (changeDonutBaseColor s).donutMaterial.isSome := by
  unfold changeDonutBaseColor
  cases hm : s.donutMaterial with
  | none => simp [hm] at h
  | some m => simp

theorem changeDonutBaseColor_iterate (s : SceneState) (h : s.donutMaterial.isSome)
    (hi : s.currentDonutBaseColorIndex < donutBaseColors.length) (N : Nat) :
    (changeDonutBaseColor^[N] s).currentDonutBaseColorIndex
        = (s.currentDonutBaseColorIndex + N) % donutBaseColors.length ∧
      (changeDonutBaseColor^[N] s).donutMaterial.isSome := by
  induction N with
  | zero => exact ⟨(Nat.mod_eq_of_lt hi).symm, h⟩
  | succ n ih =>
    rw [Function.iterate_succ_apply']
    obtain ⟨h1, h2⟩ := changeDonutBaseColor_index _ ih.2
    refine ⟨?_, h2⟩
    rw [h1, ih.1]
    have : donutBaseColors.length = 6 := rfl
    rw [this]
    omega

theorem changeDonutBaseColor_full_cycle (s : SceneState) (h : crustApplied s) :
    changeDonutBaseColor^[donutBaseColors.length] s = s := by
  obtain ⟨m, hm, hc⟩ := h
  have hlt : s.currentDonutBaseColorIndex < 6 := by
    rcases hc with hc | hc
    · exact (List.getElem?_eq_some.mp hc.1).1
    · exact (List.getElem?_eq_some.mp hc.1).1
  obtain ⟨gm, dm, pm, hg, hr, dr, px, py, ip, cz, ini, sp, gi, di, pi, ps, camz, sl, rx, ry⟩ := s
  obtain ⟨c, w⟩ := m
  simp only at hm hc hlt
  subst hm
  interval_cases di <;> simp [donutBaseColors] at hc <;> obtain ⟨h1, h2⟩ := hc <;>
    subst h1 <;> subst h2 <;> simp [donutBaseColors, changeDonutBaseColor]

theorem crustApplied_initialScene : crustApplied initialScene :=
  ⟨⟨0x5C3317, false⟩, rfl, Or.inr ⟨by simp [initialScene, donutBaseColors], rfl⟩⟩

theorem crustApplied_iterate (n : Nat) :
    crustApplied (changeDonutBaseColor^[n] initialScene) := by
  cases n with
  | zero => exact crustApplied_initialScene
  | succ k =>
    rw [Function.iterate_succ_apply']
    exact crustApplied_changeDonutBaseColor _
      (changeDonutBaseColor_iterate initialScene rfl (by decide) k).2

theorem donutBaseColors_sentinel (i : Nat) : donutBaseColors[i]? = some none ↔ i = 5 := by
  constructor
  · intro h
    have hlt : i < 6 := (List.getElem?_eq_some.mp h).1
    interval_cases i <;> simp [donutBaseColors] at h ⊢
  · rintro rfl
    simp [donutBaseColors]

/-- C3: for each of `changeGlazeColor` (palette length 4), `changeDonutBaseColor`
(length 6) and `changeSprinkleColor` (length 4), once its material exists: from
every starting index below the palette length, N calls leave the index at
(i + N) mod length, which is a valid palette position; every call leaves the
material showing what the function applies for the index reached; and from a
state whose material shows what the function applies for its index, exactly
length calls give back the same state, index and material colour included. -/
theorem palette_cycling :
    (∀ (s : SceneState) (N : Nat), s.glazeMaterial.isSome →
        s.currentGlazeColorIndex < glazeColors.length →
        (changeGlazeColor^[N] s).currentGlazeColorIndex
            = (s.currentGlazeColorIndex + N) % glazeColors.length ∧
          (changeGlazeColor^[N] s).currentGlazeColorIndex < glazeColors.length ∧
          glazeApplied (changeGlazeColor^[N + 1] s)) ∧
      (∀ s : SceneState, glazeApplied s → changeGlazeColor^[glazeColors.length] s = s) ∧
      (∀ (s : SceneState) (N : Nat), s.donutMaterial.isSome →
        s.currentDonutBaseColorIndex < donutBaseColors.length →
        (changeDonutBaseColor^[N] s).currentDonutBaseColorIndex
            = (s.currentDonutBaseColorIndex + N) % donutBaseColors.length ∧
          (changeDonutBaseColor^[N] s).currentDonutBaseColorIndex < donutBaseColors.length ∧
          crustApplied (changeDonutBaseColor^[N + 1] s)) ∧
      (∀ s : SceneState, crustApplied s →
        changeDonutBaseColor^[donutBaseColors.length] s = s) ∧
      (∀ (s : SceneState) (N : Nat), s.pepperoniMaterial.isSome →
        s.currentPepperoniColorIndex < pepperoniColors.length →
        (changeSprinkleColor^[N] s).currentPepperoniColorIndex
            = (s.currentPepperoniColorIndex + N) % pepperoniColors.length ∧
          (changeSprinkleColor^[N] s).currentPepperoniColorIndex < pepperoniColors.length ∧
          pepperoniApplied (changeSprinkleColor^[N + 1] s)) ∧
      (∀ s : SceneState, pepperoniApplied s →
        changeSprinkleColor^[pepperoniColors.length] s = s) := by
  refine ⟨?_, changeGlazeColor_full_cycle, ?_, changeDonutBaseColor_full_cycle, ?_,
    changeSprinkleColor_full_cycle⟩
  · intro s N h hi
    obtain ⟨h1, h2⟩ := changeGlazeColor_iterate s h hi N
    refine ⟨h1, ?_, ?_⟩
    · rw [h1]
      exact Nat.mod_lt _ (by decide)
    · rw [Function.iterate_succ_apply']
      exact glazeApplied_changeGlazeColor _ h2
  · intro s N h hi
    obtain ⟨h1, h2⟩ := changeDonutBaseColor_iterate s h hi N
    refine ⟨h1, ?_, ?_⟩
    · rw [h1]
      exact Nat.mod_lt _ (by decide)
    · rw [Function.iterate_succ_apply']
      exact crustApplied_changeDonutBaseColor _ h2
  · intro s N h hi
    obtain ⟨h1, h2⟩ := changeSprinkleColor_iterate s h hi N
    refine ⟨h1, ?_, ?_⟩
    · rw [h1]
      exact Nat.mod_lt _ (by decide)
    · rw [Function.iterate_succ_apply']
      exact pepperoniApplied_changeSprinkleColor _ h2

/-- Witness for C3 on the initialised scene: seven calls of each function
reach indices 3, 1 and 3, and a full cycle of each gives back the scene. -/
theorem palette_cycling_witness :
    (initialScene.glazeMaterial.isSome ∧ glazeApplied initialScene ∧
        crustApplied initialScene ∧ pepperoniApplied initialScene) ∧
      (changeGlazeColor^[7] initialScene).currentGlazeColorIndex = (0 + 7) % 4 ∧
      changeGlazeColor^[4] initialScene = initialScene ∧
      (changeDonutBaseColor^[7] initialScene).currentDonutBaseColorIndex = (0 + 7) % 6 ∧
      changeDonutBaseColor^[6] initialScene = initialScene ∧
      (changeSprinkleColor^[7] initialScene).currentPepperoniColorIndex = (0 + 7) % 4 ∧
      changeSprinkleColor^[4] initialScene = initialScene :=
  have hg : glazeApplied initialScene :=
    ⟨⟨0xFFD700, false⟩, rfl, by simp [initialScene, glazeColors]⟩
  have hp : pepperoniApplied initialScene :=
    ⟨⟨0xBC4A3C, false⟩, rfl, by simp [initialScene, pepperoniColors]⟩
  ⟨⟨rfl, hg, crustApplied_initialScene, hp⟩,
    (palette_cycling.1 initialScene 7 rfl (by decide)).1,
    palette_cycling.2.1 initialScene hg,
    (palette_cycling.2.2.1 initialScene 7 rfl (by decide)).1,
    palette_cycling.2.2.2.1 initialScene crustApplied_initialScene,
    (palette_cycling.2.2.2.2.1 initialScene 7 rfl (by decide)).1,
    palette_cycling.2.2.2.2.2 initialScene hp⟩

/-- C4: in every state reached from the initialised scene by any number of
`changeDonutBaseColor` calls, the crust material exists and its wireframe flag
is true if and only if `currentDonutBaseColorIndex` is 5, the index of the
last, `null` entry of `donutBaseColors`; when the flag is true the crust colour
is 0xF5E6C1, and otherwise it is the palette entry at the current index. -/
theorem crust_wireframe_iff_sentinel (n : Nat) :
    donutBaseColors.length = 6 ∧ donutBaseColors[5]? = some none ∧
      ∃ m, (changeDonutBaseColor^[n] initialScene).donutMaterial = some m ∧
        (m.wireframe = true ↔
          (changeDonutBaseColor^[n] initialScene).currentDonutBaseColorIndex = 5) ∧
        (m.wireframe = true → m.color = 0xF5E6C1) ∧
        (m.wireframe = false →
          donutBaseColors[(changeDonutBaseColor^[n] initialScene).currentDonutBaseColorIndex]?
            = some (some m.color)) := by
  refine ⟨rfl, by simp [donutBaseColors], ?_⟩
  obtain ⟨m, hm, hc⟩ := crustApplied_iterate n
  refine ⟨m, hm, ?_⟩
  rcases hc with ⟨h1, h2, h3⟩ | ⟨h1, h2⟩
  · refine ⟨⟨fun _ => (donutBaseColors_sentinel _).mp h1, fun _ => h2⟩, fun _ => h3, ?_⟩
    intro hw
    rw [h2] at hw
    exact absurd hw (by decide)
  · refine ⟨⟨?_, ?_⟩, ?_, fun _ => h1⟩
    · intro hw
      rw [h2] at hw
      exact absurd hw (by decide)
    · intro h5
      have := (donutBaseColors_sentinel _).mpr h5
      rw [h1] at this
      simp at this
    · intro hw
      rw [h2] at hw
      exact absurd hw (by decide)

end Scene

/-! ## Theorems: spin decay -/

namespace Scene

theorem decaySpinSpeed_baseline : decaySpinSpeed (5 / 1000) = 5 / 1000 := by
  unfold decaySpinSpeed
  norm_num

theorem decaySpinSpeed_ge (x : ℚ) (h : 5 / 1000 ≤ x) : 5 / 1000 ≤ decaySpinSpeed x := by
  unfold decaySpinSpeed
  split
  · simp only
    split
    · exact le_refl _
    · linarith
  · exact h

theorem decaySpinSpeed_iterate_baseline (k : Nat) :
    decaySpinSpeed^[k] (5 / 1000) = 5 / 1000 :=
  Function.iterate_fixed decaySpinSpeed_baseline k

theorem decaySpinSpeed_iterate_ge (x : ℚ) (h : 5 / 1000 ≤ x) (k : Nat) :
    5 / 1000 ≤ decaySpinSpeed^[k] x := by
  induction k with
  | zero => exact h
  | succ n ih =>
    rw [Function.iterate_succ_apply']
    exact decaySpinSpeed_ge _ ih

theorem decaySpinSpeed_of_gt (y : ℚ) (h : 5 / 1000 < y) :
    decaySpinSpeed y = 5 / 1000 ∨
      (decaySpinSpeed y = y * (95 / 100) ∧ 6 / 1000 ≤ decaySpinSpeed y) := by
  unfold decaySpinSpeed
  rw [if_pos h]
  simp only
  split
  · exact Or.inl rfl
  · exact Or.inr ⟨rfl, by linarith⟩

theorem decaySpinSpeed_iterate_cases (x : ℚ) (h : 5 / 1000 < x) (k : Nat) :
    decaySpinSpeed^[k + 1] x = 5 / 1000 ∨
      (decaySpinSpeed^[k + 1] x = x * (95 / 100) ^ (k + 1) ∧
        6 / 1000 ≤ decaySpinSpeed^[k + 1] x) := by
  induction k with
  | zero =>
    simp only [zero_add, Function.iterate_one, pow_one]
    exact decaySpinSpeed_of_gt x h
  | succ n ih =>
    rw [Function.iterate_succ_apply']
    rcases ih with h0 | ⟨h1, h2⟩
    · rw [h0]
      exact Or.inl decaySpinSpeed_baseline
    · have hgt : 5 / 1000 < decaySpinSpeed^[n + 1] x := by linarith
      rcases decaySpinSpeed_of_gt _ hgt with h3 | ⟨h3, h4⟩
      · exact Or.inl h3
      · refine Or.inr ⟨?_, h4⟩
        rw [h3, h1, pow_succ (95 / 100 : ℚ) (n + 1)]
        ring

theorem decaySpinSpeed_reaches_baseline (x : ℚ) (h : 5 / 1000 < x) :
    ∃ n, ∀ m, n ≤ m → decaySpinSpeed^[m] x = 5 / 1000 := by
  have hx : (0 : ℚ) < x := by linarith
  obtain ⟨n, hn⟩ := exists_pow_lt_of_lt_one (div_pos (by norm_num : (0 : ℚ) < 6 / 1000) hx)
    (by norm_num : (95 / 100 : ℚ) < 1)
  have hn1 : x * (95 / 100) ^ (n + 1) < 6 / 1000 := by
    have h1 : x * (95 / 100 : ℚ) ^ n < 6 / 1000 := by
      have := mul_lt_mul_of_pos_left hn hx
      rwa [mul_div_cancel₀ _ (ne_of_gt hx)] at this
    have h2 : (0 : ℚ) < (95 / 100) ^ n := pow_pos (by norm_num) n
    rw [pow_succ]
    nlinarith
  have hbase : decaySpinSpeed^[n + 1] x = 5 / 1000 := by
    rcases decaySpinSpeed_iterate_cases x h n with h0 | ⟨h1, h2⟩
    · exact h0
    · rw [h1] at h2
      linarith
  refine ⟨n + 1, fun m hm => ?_⟩
  obtain ⟨d, rfl⟩ := Nat.exists_eq_add_of_le hm
  rw [Nat.add_comm, Function.iterate_add_apply, hbase]
  exact decaySpinSpeed_iterate_baseline d

theorem animate_frame (s : SceneState) (hg : s.hasDonutGroup = true)
    (hr : s.hasRenderer = true) :
    (animate s).donutSpinSpeed = decaySpinSpeed s.donutSpinSpeed ∧
      (animate s).hasDonutGroup = true ∧ (animate s).hasRenderer = true := by
  unfold animate
  rw [if_pos ⟨hg, hr⟩]
  exact ⟨rfl, hg, hr⟩

theorem animate_iterate (s : SceneState) (hg : s.hasDonutGroup = true)
    (hr : s.hasRenderer = true) (m : Nat) :
    (animate^[m] s).donutSpinSpeed = decaySpinSpeed^[m] s.donutSpinSpeed ∧
      (animate^[m] s).hasDonutGroup = true ∧ (animate^[m] s).hasRenderer = true := by
  induction m with
  | zero => exact ⟨rfl, hg, hr⟩
  | succ n ih =>
    rw [Function.iterate_succ_apply', Function.iterate_succ_apply']
    obtain ⟨h1, h2, h3⟩ := ih
    obtain ⟨k1, k2, k3⟩ := animate_frame _ h2 h3
    exact ⟨by rw [k1, h1], k2, k3⟩

theorem animate_iterate_speed_succ (s : SceneState) (hg : s.hasDonutGroup = true)
    (hr : s.hasRenderer = true) (m : Nat) :
    (animate^[m + 1] s).donutSpinSpeed = decaySpinSpeed (animate^[m] s).donutSpinSpeed := by
  obtain ⟨-, h2, h3⟩ := animate_iterate s hg hr m
  rw [Function.iterate_succ_apply']
  exact (animate_frame _ h2 h3).1

/-- C5: with the mesh group and the renderer in place, for every spin speed
above 0.005 set by `setDonutSpinSpeed`: each frame of `animate` takes the speed
v to v itself when v is not above 0.005, and otherwise to v * 0.95, replaced by
0.005 when v * 0.95 is below 0.006; after k + 1 frames the speed is 0.005 or it
is the set speed times 0.95 ^ (k + 1) and at least 0.006; the speed is exactly
0.005 after finitely many frames and on every later frame; and after every
frame it is at least 0.005 (exact rational arithmetic). -/
theorem spin_speed_decays_to_baseline (s : SceneState) (speed : ℚ)
    (hg : s.hasDonutGroup = true) (hr : s.hasRenderer = true) (h : speed > 5 / 1000) :
    (animate^[0] (setDonutSpinSpeed speed s)).donutSpinSpeed = speed ∧
      (∀ m, (animate^[m + 1] (setDonutSpinSpeed speed s)).donutSpinSpeed =
        if (animate^[m] (setDonutSpinSpeed speed s)).donutSpinSpeed > 5 / 1000 then
          if (animate^[m] (setDonutSpinSpeed speed s)).donutSpinSpeed * (95 / 100) < 6 / 1000
          then 5 / 1000
          else (animate^[m] (setDonutSpinSpeed speed s)).donutSpinSpeed * (95 / 100)
        else (animate^[m] (setDonutSpinSpeed speed s)).donutSpinSpeed) ∧
      (∀ k, (animate^[k + 1] (setDonutSpinSpeed speed s)).donutSpinSpeed = 5 / 1000 ∨
        ((animate^[k + 1] (setDonutSpinSpeed speed s)).donutSpinSpeed
            = speed * (95 / 100) ^ (k + 1) ∧
          6 / 1000 ≤ (animate^[k + 1] (setDonutSpinSpeed speed s)).donutSpinSpeed)) ∧
      (∃ n, ∀ m, n ≤ m → (animate^[m] (setDonutSpinSpeed speed s)).donutSpinSpeed = 5 / 1000) ∧
      ∀ m, 5 / 1000 ≤ (animate^[m] (setDonutSpinSpeed speed s)).donutSpinSpeed := by
  have key : ∀ m, (animate^[m] (setDonutSpinSpeed speed s)).donutSpinSpeed
      = decaySpinSpeed^[m] speed :=
    fun m => (animate_iterate (setDonutSpinSpeed speed s) hg hr m).1
  refine ⟨rfl, ?_, ?_, ?_, ?_⟩
  · intro m
    rw [animate_iterate_speed_succ (setDonutSpinSpeed speed s) hg hr m]
    rfl
  · intro k
    rw [key (k + 1)]
    exact decaySpinSpeed_iterate_cases speed h k
  · obtain ⟨n, hn⟩ := decaySpinSpeed_reaches_baseline speed h
    exact ⟨n, fun m hm => by rw [key m]; exact hn m hm⟩
  · intro m
    rw [key m]
    exact decaySpinSpeed_iterate_ge speed (le_of_lt h) m

/-- Witness for C5: a burst speed of 1/10 on the initialised scene; the first
frame brings it to 19/200, and a speed of 6/1000 is snapped to 5/1000 by one
frame. -/
theorem spin_speed_decays_to_baseline_witness :
    (initialScene.hasDonutGroup = true ∧ initialScene.hasRenderer = true ∧
        (1 / 10 : ℚ) > 5 / 1000) ∧
      (animate (setDonutSpinSpeed (1 / 10) initialScene)).donutSpinSpeed = 19 / 200 ∧
      (animate (setDonutSpinSpeed (6 / 1000) initialScene)).donutSpinSpeed = 5 / 1000 ∧
      (∃ n, ∀ m, n ≤ m →
        (animate^[m] (setDonutSpinSpeed (1 / 10) initialScene)).donutSpinSpeed = 5 / 1000) ∧
      ∀ m, 5 / 1000 ≤ (animate^[m] (setDonutSpinSpeed (1 / 10) initialScene)).donutSpinSpeed :=
  have h := spin_speed_decays_to_baseline initialScene (1 / 10) rfl rfl (by norm_num)
  have h6 := spin_speed_decays_to_baseline initialScene (6 / 1000) rfl rfl (by norm_num)
  ⟨⟨rfl, rfl, by norm_num⟩,
    (h.2.1 0).trans (by norm_num [setDonutSpinSpeed]),
    (h6.2.1 0).trans (by norm_num [setDonutSpinSpeed]),
    h.2.2.2.1, h.2.2.2.2⟩

end Scene

/-! ## Theorems: audio -/

namespace Audio

theorem initAudio_of_initialized (st : AudioState) (h : st.isAudioInitialized = true) :
    initAudio st = st := by
  unfold initAudio
  rw [if_pos h]

theorem initAudioCalls_runs : initAudioCalls.count (.create "Limiter") = 1 := by
  decide

theorem triggered_initAudioCalls : triggered initAudioCalls = [] := by
  decide

theorem ensureAudio_spec (env : ToneEnv) (st : AudioState) (h : AudioInv st) :
    (ensureAudio env st).isAudioInitialized = true ∧
      graphBuilt (ensureAudio env st) ∧
      AudioInv (ensureAudio env st) ∧
      (ensureAudio env st).isMusicPlaying = st.isMusicPlaying ∧
      (ensureAudio env st).isSfxMuted = st.isSfxMuted ∧
      (ensureAudio env st).sfxToggleButtonText = st.sfxToggleButtonText ∧
      (ensureAudio env st).musicToggleButtonText = st.musicToggleButtonText ∧
      (ensureAudio env st).log =
        st.log ++ (if env.contextRunning then [] else [.toneStart]) ++
          (if st.isAudioInitialized then [] else initAudioCalls) := by
  obtain ⟨h1, h2⟩ := h
  cases hi : st.isAudioInitialized <;> cases hc : env.contextRunning
  all_goals simp [ensureAudio, initAudio, hi, hc, AudioInv, graphBuilt, initAudioRuns] at h1 h2 ⊢
  · rw [h2, initAudioCalls_runs]
  · rw [h2, initAudioCalls_runs]
  · exact h1
  · exact h1

theorem startSequence_log (env : ToneEnv) (seq : Option Sequence) (name : SequenceName)
    (st : AudioState) (h : seq.isSome = true) (hs : env.sequenceStopped name = true) :
    startSequence env seq name st = { st with log := st.log ++ [.sequenceStart name 0] } := by
  obtain ⟨x, rfl⟩ := Option.isSome_iff_exists.mp h
  simp [startSequence, hs]

theorem stopSequence_log (seq : Option Sequence) (name : SequenceName)
    (st : AudioState) (h : seq.isSome = true) :
    stopSequence seq name st = { st with log := st.log ++ [.sequenceStop name 0] } := by
  obtain ⟨x, rfl⟩ := Option.isSome_iff_exists.mp h
  simp [stopSequence]

theorem toggleMusic_start (env : ToneEnv) (st : AudioState) (hinv : AudioInv st)
    (hp : st.isMusicPlaying = false) (hs : ∀ n, env.sequenceStopped n = true) :
    toggleMusic env st =
      { ensureAudio env st with
        log := (ensureAudio env st).log ++
          [.transportStart, .sequenceStart .bassSequence 0, .sequenceStart .chordSequence 0,
            .sequenceStart .violinSequence 0, .sequenceStart .operaSequence 0]
        musicToggleButtonText := "🎵"
        isMusicPlaying := true } := by
  obtain ⟨-, hg, -, hm, -⟩ := ensureAudio_spec env st hinv
  rw [hp] at hm
  obtain ⟨-, -, -, -, g5, g6, g7, g8, -, -⟩ := hg
  unfold toggleMusic
  simp only [hm, Bool.false_eq_true, if_false, Bool.not_false]
  rw [startSequence_log env _ _ _ g5 (hs _), startSequence_log env _ _ _ g6 (hs _),
    startSequence_log env _ _ _ g7 (hs _), startSequence_log env _ _ _ g8 (hs _)]
  simp

theorem toggleMusic_stop (env : ToneEnv) (st : AudioState) (hinv : AudioInv st)
    (hp : st.isMusicPlaying = true) :
    toggleMusic env st =
      { ensureAudio env st with
        log := (ensureAudio env st).log ++
          [.transportStop, .sequenceStop .bassSequence 0, .sequenceStop .chordSequence 0,
            .sequenceStop .violinSequence 0, .sequenceStop .operaSequence 0]
        musicToggleButtonText := "🔇"
        isMusicPlaying := false } := by
  obtain ⟨-, hg, -, hm, -⟩ := ensureAudio_spec env st hinv
  rw [hp] at hm
  obtain ⟨-, -, -, -, g5, g6, g7, g8, -, -⟩ := hg
  unfold toggleMusic
  simp only [hm, if_true, Bool.not_true]
  rw [stopSequence_log _ _ _ g5, stopSequence_log _ _ _ g6,
    stopSequence_log _ _ _ g7, stopSequence_log _ _ _ g8]
  simp

theorem AudioInv_log (st : AudioState) (l : List Effect)
    (hl : l.count (.create "Limiter") = 0) (h : AudioInv st) :
    AudioInv { st with log := st.log ++ l } := by
  unfold AudioInv graphBuilt initAudioRuns at *
  simp only [List.count_append, hl, Nat.add_zero]
  exact h

theorem startSequence_inv (env : ToneEnv) (seq : Option Sequence) (name : SequenceName)
    (st : AudioState) (h : AudioInv st ∧ st.isAudioInitialized = true) :
    AudioInv (startSequence env seq name st) ∧
      (startSequence env seq name st).isAudioInitialized = true := by
  unfold startSequence
  split
  · split
    · exact ⟨AudioInv_log st _ (by simp [List.count_cons]) h.1, h.2⟩
    · exact h
  · exact h

theorem stopSequence_inv (seq : Option Sequence) (name : SequenceName)
    (st : AudioState) (h : AudioInv st ∧ st.isAudioInitialized = true) :
    AudioInv (stopSequence seq name st) ∧
      (stopSequence seq name st).isAudioInitialized = true := by
  unfold stopSequence
  split
  · exact ⟨AudioInv_log st _ (by simp [List.count_cons]) h.1, h.2⟩
  · exact h

theorem toggleMusic_inv (env : ToneEnv) (st : AudioState) (hinv : AudioInv st) :
    AudioInv (toggleMusic env st) ∧ (toggleMusic env st).isAudioInitialized = true := by
  obtain ⟨hi, -, hinv1, -⟩ := ensureAudio_spec env st hinv
  have flip : ∀ s2 : AudioState, AudioInv s2 ∧ s2.isAudioInitialized = true →
      AudioInv { s2 with isMusicPlaying := !s2.isMusicPlaying } ∧
        ({ s2 with isMusicPlaying := !s2.isMusicPlaying } : AudioState).isAudioInitialized
          = true := fun _ h => h
  have glyph : ∀ s2 : AudioState, AudioInv s2 ∧ s2.isAudioInitialized = true →
      AudioInv { s2 with musicToggleButtonText := "🎵" } ∧
        ({ s2 with musicToggleButtonText := "🎵" } : AudioState).isAudioInitialized
          = true := fun _ h => h
  unfold toggleMusic
  refine flip _ ?_
  split
  · refine stopSequence_inv _ _ _ (stopSequence_inv _ _ _ (stopSequence_inv _ _ _
      (stopSequence_inv _ _ _ ?_)))
    exact ⟨AudioInv_log (ensureAudio env st) _ (by simp [List.count_cons]) hinv1, hi⟩
  · refine glyph _ (startSequence_inv _ _ _ _ (startSequence_inv _ _ _ _
      (startSequence_inv _ _ _ _ (startSequence_inv _ _ _ _ ?_))))
    exact ⟨AudioInv_log (ensureAudio env st) _ (by simp [List.count_cons]) hinv1, hi⟩

theorem triggerAttackRelease_some (synth : Option Synth) (name : SynthName)
    (pitch duration : String) (time : ℚ) (st : AudioState) (h : synth.isSome = true) :
    triggerAttackRelease synth name pitch duration time st =
      some { st with log := st.log ++ [.triggerAttackRelease name pitch duration time] } := by
  obtain ⟨x, rfl⟩ := Option.isSome_iff_exists.mp h
  rfl

theorem playSoundEffect_spec (env : ToneEnv) (sound : String) (st : AudioState)
    (hinv : AudioInv st) (hm : st.isSfxMuted = false) :
    playSoundEffect env sound st =
      some { ensureAudio env st with
        log := (ensureAudio env st).log ++
          (if sound = "click" then
            [.triggerAttackRelease .cuteClickSound "C6" "32n" (env.now + 1 / 1000)] else []) ++
          (if sound = "purchase" then
            [.triggerAttackRelease .purchaseSound "C5" "16n" (env.now + 1 / 1000),
              .triggerAttackRelease .purchaseSound "E5" "16n" (env.now + 5 / 100 + 1 / 1000),
              .triggerAttackRelease .purchaseSound "G5" "16n" (env.now + 1 / 10 + 1 / 1000)]
            else []) } := by
  obtain ⟨-, hg, -⟩ := ensureAudio_spec env st hinv
  obtain ⟨-, -, -, -, -, -, -, -, g9, g10⟩ := hg
  unfold playSoundEffect
  simp only [hm, Bool.false_eq_true, if_false]
  have hne : ¬ ("purchase" = "click") := by decide
  have hne2 : ¬ ("click" = "purchase") := by decide
  by_cases hc : sound = "click"
  · subst hc
    simp only [if_true, hne2, if_false]
    rw [triggerAttackRelease_some _ _ _ _ _ _ g10]
    simp
  · by_cases hp : sound = "purchase"
    · subst hp
      simp only [hne, if_false, if_true, Option.some_bind]
      rw [triggerAttackRelease_some _ _ _ _ _ _ g9]
      simp only [Option.some_bind]
      rw [triggerAttackRelease_some _ _ _ _ _ _ g9]
      simp only [Option.some_bind]
      rw [triggerAttackRelease_some _ _ _ _ _ _ g9]
      simp
    · simp [hc, hp]

theorem ensureAudio_isMusicPlaying (env : ToneEnv) (st : AudioState) :
    (ensureAudio env st).isMusicPlaying = st.isMusicPlaying := by
  unfold ensureAudio initAudio
  simp only
  split_ifs <;> rfl

theorem startSequence_isMusicPlaying (env : ToneEnv) (seq : Option Sequence)
    (name : SequenceName) (st : AudioState) :
    (startSequence env seq name st).isMusicPlaying = st.isMusicPlaying := by
  unfold startSequence
  split
  · split <;> rfl
  · rfl

theorem stopSequence_isMusicPlaying (seq : Option Sequence) (name : SequenceName)
    (st : AudioState) : (stopSequence seq name st).isMusicPlaying = st.isMusicPlaying := by
  unfold stopSequence
  split <;> rfl

theorem toggleMusic_isMusicPlaying (env : ToneEnv) (st : AudioState) :
    (toggleMusic env st).isMusicPlaying = !st.isMusicPlaying := by
  unfold toggleMusic
  simp only
  split
  · simp only [stopSequence_isMusicPlaying, ensureAudio_isMusicPlaying]
  · simp only [startSequence_isMusicPlaying, ensureAudio_isMusicPlaying]

theorem AudioInv_initialAudio (muted : Bool) (sfxText musicText : String) :
    AudioInv (initialAudio muted sfxText musicText) := by
  constructor
  · intro h
    exact absurd h (by simp [initialAudio])
  · intro _
    rfl

theorem initAudioRuns_le_one (st : AudioState) (h : AudioInv st) : initAudioRuns st ≤ 1 := by
  cases hi : st.isAudioInitialized
  · rw [h.2 hi]
    exact Nat.zero_le 1
  · rw [(h.1 hi).2]

theorem playSoundEffect_inv (env : ToneEnv) (sound : String) (st : AudioState)
    (h : AudioInv st) :
    ∃ st1, playSoundEffect env sound st = some st1 ∧ AudioInv st1 ∧
      (st.isAudioInitialized = true → st1.isAudioInitialized = true) := by
  cases hm : st.isSfxMuted
  · obtain ⟨hi, -, hinv1, -⟩ := ensureAudio_spec env st h
    refine ⟨_, playSoundEffect_spec env sound st h hm, ?_, fun _ => hi⟩
    rw [List.append_assoc]
    apply AudioInv_log _ _ _ hinv1
    split_ifs <;> simp [List.count_cons]
  · refine ⟨st, ?_, h, fun hi => hi⟩
    unfold playSoundEffect
    rw [if_pos hm]

theorem toggleSfx_inv (env : ToneEnv) (st : AudioState) (h : AudioInv st) :
    ∃ st1, toggleSfx env st = some st1 ∧ AudioInv st1 ∧
      (st.isAudioInitialized = true → st1.isAudioInitialized = true) := by
  unfold toggleSfx
  simp only
  split
  · exact playSoundEffect_inv env "click" _ h
  · exact ⟨_, rfl, h, fun hi => hi⟩

theorem perform_inv (env : ToneEnv) (c : Call) (st : AudioState) (h : AudioInv st) :
    ∃ st1, perform env c st = some st1 ∧ AudioInv st1 ∧
      (st.isAudioInitialized = true → st1.isAudioInitialized = true) := by
  cases c with
  | playSoundEffect sound => exact playSoundEffect_inv env sound st h
  | toggleSfx => exact toggleSfx_inv env st h
  | toggleMusic =>
    exact ⟨_, rfl, (toggleMusic_inv env st h).1, fun _ => (toggleMusic_inv env st h).2⟩

theorem performAll_inv (calls : List (ToneEnv × Call)) :
    ∀ st : AudioState, AudioInv st →
      ∃ st1, performAll calls st = some st1 ∧ AudioInv st1 ∧
        (st.isAudioInitialized = true → st1.isAudioInitialized = true) := by
  induction calls with
  | nil => intro st h; exact ⟨st, rfl, h, fun hi => hi⟩
  | cons c rest ih =>
    intro st h
    obtain ⟨env, call⟩ := c
    obtain ⟨st1, h1, hinv1, hflag1⟩ := perform_inv env call st h
    obtain ⟨st2, h2, hinv2, hflag2⟩ := ih st1 hinv1
    refine ⟨st2, ?_, hinv2, fun hi => hflag2 (hflag1 hi)⟩
    simp only [performAll, h1, Option.some_bind, h2]

theorem performAll_append (xs ys : List (ToneEnv × Call)) :
    ∀ st : AudioState, performAll (xs ++ ys) st = (performAll xs st).bind (performAll ys) := by
  induction xs with
  | nil => intro st; rfl
  | cons c rest ih =>
    intro st
    obtain ⟨env, call⟩ := c
    simp only [List.cons_append, performAll]
    cases perform env call st with
    | none => rfl
    | some st1 =>
      simp only [Option.some_bind]
      exact ih st1

/-- C6: for every state, two consecutive `toggleMusic` calls restore
`isMusicPlaying`. From a stopped state in which every sequence reports
`stopped`, the first call (after starting the context and building the graph
where needed) starts the transport, calls `start(0)` on the bass, chord, violin
and opera sequences in that order and sets the button to the musical note; the
second call (after starting the context where needed) stops the transport,
calls `stop(0)` on the four sequences and nothing else, and sets the button to
the muted icon. -/
theorem toggleMusic_twice :
    (∀ (env1 env2 : ToneEnv) (st : AudioState),
        (toggleMusic env2 (toggleMusic env1 st)).isMusicPlaying = st.isMusicPlaying) ∧
      ∀ (env1 env2 : ToneEnv) (st : AudioState), AudioInv st → st.isMusicPlaying = false →
        (∀ n, env1.sequenceStopped n = true) →
        (toggleMusic env1 st).isMusicPlaying = true ∧
          (toggleMusic env1 st).musicToggleButtonText = "🎵" ∧
          (toggleMusic env1 st).log =
            st.log ++ (if env1.contextRunning then [] else [.toneStart]) ++
              (if st.isAudioInitialized then [] else initAudioCalls) ++
              [.transportStart, .sequenceStart .bassSequence 0,
                .sequenceStart .chordSequence 0, .sequenceStart .violinSequence 0,
                .sequenceStart .operaSequence 0] ∧
          (toggleMusic env2 (toggleMusic env1 st)).isMusicPlaying = false ∧
          (toggleMusic env2 (toggleMusic env1 st)).musicToggleButtonText = "🔇" ∧
          (toggleMusic env2 (toggleMusic env1 st)).log =
            (toggleMusic env1 st).log ++ (if env2.contextRunning then [] else [.toneStart]) ++
              [.transportStop, .sequenceStop .bassSequence 0,
                .sequenceStop .chordSequence 0, .sequenceStop .violinSequence 0,
                .sequenceStop .operaSequence 0] := by
  constructor
  · intro env1 env2 st
    rw [toggleMusic_isMusicPlaying, toggleMusic_isMusicPlaying, Bool.not_not]
  · intro env1 env2 st hinv hp hs
    obtain ⟨hinv1, hi1⟩ := toggleMusic_inv env1 st hinv
    have hp1 : (toggleMusic env1 st).isMusicPlaying = true := by
      rw [toggleMusic_isMusicPlaying, hp]
      rfl
    have e2 := toggleMusic_stop env2 (toggleMusic env1 st) hinv1 hp1
    have l2 := (ensureAudio_spec env2 (toggleMusic env1 st) hinv1).2.2.2.2.2.2.2
    have e1 := toggleMusic_start env1 st hinv hp hs
    have l1 := (ensureAudio_spec env1 st hinv).2.2.2.2.2.2.2
    refine ⟨hp1, ?_, ?_, ?_, ?_, ?_⟩
    · rw [e1]
    · rw [e1]
      simp only
      rw [l1]
    · rw [toggleMusic_isMusicPlaying, hp1]
      rfl
    · rw [e2]
    · rw [e2]
      simp only
      rw [l2, hi1]
      simp

/-- Witness for C6: the freshly loaded module, with the context not yet
running on the first call. -/
theorem toggleMusic_twice_witness :
    (AudioInv (initialAudio false "🔊" "🔇") ∧
        (initialAudio false "🔊" "🔇").isMusicPlaying = false ∧
        ∀ n, ({ quietEnv with contextRunning := false } : ToneEnv).sequenceStopped n = true) ∧
      (toggleMusic { quietEnv with contextRunning := false }
          (initialAudio false "🔊" "🔇")).log =
        [] ++ (if ({ quietEnv with contextRunning := false } : ToneEnv).contextRunning
            then [] else [.toneStart]) ++
          (if (initialAudio false "🔊" "🔇").isAudioInitialized then [] else initAudioCalls) ++
          [.transportStart, .sequenceStart .bassSequence 0,
            .sequenceStart .chordSequence 0, .sequenceStart .violinSequence 0,
            .sequenceStart .operaSequence 0] ∧
      (toggleMusic quietEnv (toggleMusic { quietEnv with contextRunning := false }
          (initialAudio false "🔊" "🔇"))).musicToggleButtonText = "🔇" :=
  have h := toggleMusic_twice.2 { quietEnv with contextRunning := false } quietEnv
    (initialAudio false "🔊" "🔇") (AudioInv_initialAudio _ _ _) rfl (fun _ => rfl)
  ⟨⟨AudioInv_initialAudio _ _ _, rfl, fun _ => rfl⟩, h.2.2.1, h.2.2.2.2.1⟩

/-- C7: for every sound argument and every state in which
`State.uiState.isSfxMuted` is true, `playSoundEffect` returns with the whole
state unchanged: no voice is triggered, the context is not started and the
audio graph is not built. -/
theorem playSoundEffect_muted (env : ToneEnv) (sound : String) (st : AudioState)
    (h : st.isSfxMuted = true) : playSoundEffect env sound st = some st := by
  unfold playSoundEffect
  rw [if_pos h]

/-- Witness for C7: a muted, freshly loaded module asked for the purchase sound
while the context is not running. -/
theorem playSoundEffect_muted_witness :
    (initialAudio true "🔇" "🔇").isSfxMuted = true ∧
      playSoundEffect { quietEnv with contextRunning := false } "purchase"
        (initialAudio true "🔇" "🔇") = some (initialAudio true "🔇" "🔇") :=
  ⟨rfl, playSoundEffect_muted _ "purchase" _ rfl⟩

/-- C8: from an unmuted state, the first `toggleSfx` call returns with
`isSfxMuted` true, the muted-speaker glyph and an unchanged log (no voice); the
second returns with `isSfxMuted` false, the speaker glyph, and a log extended
by the context start and graph construction where needed followed by exactly
one voice, the click synth playing C6 for 32n. -/
theorem toggleSfx_twice (env1 env2 : ToneEnv) (st : AudioState) (hinv : AudioInv st)
    (hm : st.isSfxMuted = false) :
    ∃ s1 s2, toggleSfx env1 st = some s1 ∧ s1.isSfxMuted = true ∧
      s1.sfxToggleButtonText = "🔇" ∧ s1.log = st.log ∧
      toggleSfx env2 s1 = some s2 ∧ s2.isSfxMuted = false ∧
      s2.sfxToggleButtonText = "🔊" ∧
      s2.log = st.log ++ (if env2.contextRunning then [] else [.toneStart]) ++
          (if st.isAudioInitialized then [] else initAudioCalls) ++
          [.triggerAttackRelease .cuteClickSound "C6" "32n" (env2.now + 1 / 1000)] ∧
      triggered s2.log = triggered st.log ++
          [.triggerAttackRelease .cuteClickSound "C6" "32n" (env2.now + 1 / 1000)] := by
  have hinv1 : AudioInv { st with isSfxMuted := true, sfxToggleButtonText := "🔇" } := hinv
  have hinv2 : AudioInv { st with isSfxMuted := false, sfxToggleButtonText := "🔊" } := hinv
  obtain ⟨-, -, -, -, k1, k2, -, k3⟩ := ensureAudio_spec env2 _ hinv2
  refine ⟨{ st with isSfxMuted := true, sfxToggleButtonText := "🔇" },
    { ensureAudio env2 { st with isSfxMuted := false, sfxToggleButtonText := "🔊" } with
      log := (ensureAudio env2
          { st with isSfxMuted := false, sfxToggleButtonText := "🔊" }).log ++
        [.triggerAttackRelease .cuteClickSound "C6" "32n" (env2.now + 1 / 1000)] },
    ?_, rfl, rfl, rfl, ?_, k1, k2, ?_, ?_⟩
  · simp [toggleSfx, hm]
  · have := playSoundEffect_spec env2 "click" _ hinv2 rfl
    simp only [toggleSfx, Bool.not_true, Bool.not_false, Bool.false_eq_true, if_false, if_true]
    rw [this]
    simp
  · simp only
    rw [k3]
  · simp only
    rw [k3]
    unfold triggered
    simp only [List.filter_append]
    have h0 : List.filter (fun e => match e with
        | .triggerAttackRelease _ _ _ _ => true
        | _ => false) initAudioCalls = [] := triggered_initAudioCalls
    split_ifs <;> simp [h0]

/-- Witness for C8: the freshly loaded, unmuted module. -/
theorem toggleSfx_twice_witness :
    (AudioInv (initialAudio false "🔊" "🔇") ∧
        (initialAudio false "🔊" "🔇").isSfxMuted = false) ∧
      ∃ s1 s2, toggleSfx quietEnv (initialAudio false "🔊" "🔇") = some s1 ∧
        s1.isSfxMuted = true ∧ s1.sfxToggleButtonText = "🔇" ∧
        s1.log = (initialAudio false "🔊" "🔇").log ∧
        toggleSfx quietEnv s1 = some s2 ∧ s2.isSfxMuted = false ∧
        s2.sfxToggleButtonText = "🔊" ∧
        s2.log = (initialAudio false "🔊" "🔇").log ++
            (if quietEnv.contextRunning then [] else [.toneStart]) ++
            (if (initialAudio false "🔊" "🔇").isAudioInitialized then [] else initAudioCalls) ++
            [.triggerAttackRelease .cuteClickSound "C6" "32n" (quietEnv.now + 1 / 1000)] ∧
        triggered s2.log = triggered (initialAudio false "🔊" "🔇").log ++
            [.triggerAttackRelease .cuteClickSound "C6" "32n" (quietEnv.now + 1 / 1000)] :=
  ⟨⟨AudioInv_initialAudio _ _ _, rfl⟩,
    toggleSfx_twice quietEnv quietEnv (initialAudio false "🔊" "🔇")
      (AudioInv_initialAudio _ _ _) rfl⟩

/-- C9, as stated, fails: the events array that `initAudio` gives
`operaSequence` on the freshly loaded module has 42 entries, not 36. -/
theorem operaSequence_not_36_steps :
    (∃ q, (initAudio (initialAudio false "🔊" "🔇")).operaSequence = some q ∧
        q.events.length = 42) ∧
      ¬ ∃ q, (initAudio (initialAudio false "🔊" "🔇")).operaSequence = some q ∧
        q.events.length = 36 := by
  constructor
  · exact ⟨⟨.operaVoice, "2n", operaEvents, "4n"⟩, rfl, rfl⟩
  · rintro ⟨q, hq, hlen⟩
    have h : (initAudio (initialAudio false "🔊" "🔇")).operaSequence
        = some ⟨.operaVoice, "2n", operaEvents, "4n"⟩ := rfl
    rw [h] at hq
    cases hq
    exact absurd hlen (by decide)

/-- C9, amended: the step list that `initAudio` builds for `operaSequence` has
exactly 42 steps, its first 12 steps (4 measures of 3 beats) are all rests, and
step 12 is pitched (D5), hence the first pitched step. -/
theorem operaSequence_steps (st : AudioState) (h : st.isAudioInitialized = false) :
    ∃ q, (initAudio st).operaSequence = some q ∧ q.events.length = 42 ∧
      (∀ i, i < 12 → q.events[i]? = some Step.rest) ∧
      q.events[12]? = some (Step.note "D5") := by
  refine ⟨⟨.operaVoice, "2n", operaEvents, "4n"⟩, ?_, rfl, ?_, rfl⟩
  · unfold initAudio
    simp [h]
  · intro i hi
    interval_cases i <;> rfl

/-- Witness for C9 on the freshly loaded module. -/
theorem operaSequence_steps_witness :
    (initialAudio false "🔊" "🔇").isAudioInitialized = false ∧
      ∃ q, (initAudio (initialAudio false "🔊" "🔇")).operaSequence = some q ∧
        q.events.length = 42 ∧ (∀ i, i < 12 → q.events[i]? = some Step.rest) ∧
        q.events[12]? = some (Step.note "D5") :=
  ⟨rfl, operaSequence_steps (initialAudio false "🔊" "🔇") rfl⟩

/-- C10: every finite sequence of `playSoundEffect`, `toggleSfx` and
`toggleMusic` calls from the freshly loaded module runs to completion, and in
the state it reaches the body of `initAudio` has run at most once; if
`isAudioInitialized` is true after some initial part of the calls it is true at
the end; and an `initAudio` call in a state where the flag is true returns the
state unchanged. -/
theorem initAudio_runs_at_most_once (muted : Bool) (sfxText musicText : String)
    (calls : List (ToneEnv × Call)) :
    (∃ st, performAll calls (initialAudio muted sfxText musicText) = some st ∧
        initAudioRuns st ≤ 1 ∧
        ∀ k s1, performAll (calls.take k) (initialAudio muted sfxText musicText) = some s1 →
          s1.isAudioInitialized = true → st.isAudioInitialized = true) ∧
      ∀ s : AudioState, s.isAudioInitialized = true → initAudio s = s := by
  refine ⟨?_, initAudio_of_initialized⟩
  obtain ⟨st, hst, hinv, -⟩ :=
    performAll_inv calls _ (AudioInv_initialAudio muted sfxText musicText)
  refine ⟨st, hst, initAudioRuns_le_one st hinv, ?_⟩
  intro k s1 hs1 hflag
  obtain ⟨s1a, h1a, hinv1, -⟩ :=
    performAll_inv (calls.take k) _ (AudioInv_initialAudio muted sfxText musicText)
  rw [hs1] at h1a
  cases h1a
  obtain ⟨s2, h2, -, hflag2⟩ := performAll_inv (calls.drop k) s1 hinv1
  have happ := performAll_append (calls.take k) (calls.drop k)
    (initialAudio muted sfxText musicText)
  rw [List.take_append_drop, hst, hs1, Option.some_bind, h2] at happ
  cases happ
  exact hflag2 hflag

/-- Witness for C10: a click, a music toggle and a purchase sound on the
unmuted module build the graph once, and a further `initAudio` changes nothing. -/
theorem initAudio_runs_at_most_once_witness :
    (∃ st, performAll
        [(quietEnv, .playSoundEffect "click"), (quietEnv, .toggleMusic),
          (quietEnv, .playSoundEffect "purchase")] (initialAudio false "🔊" "🔇") = some st ∧
        initAudioRuns st ≤ 1) ∧
      (initAudio (initialAudio false "🔊" "🔇")).isAudioInitialized = true ∧
      initAudio (initAudio (initialAudio false "🔊" "🔇")) =
        initAudio (initialAudio false "🔊" "🔇") :=
  have h := initAudio_runs_at_most_once false "🔊" "🔇"
    [(quietEnv, .playSoundEffect "click"), (quietEnv, .toggleMusic),
      (quietEnv, .playSoundEffect "purchase")]
  ⟨h.1.elim fun st hst => ⟨st, hst.1, hst.2.1⟩, rfl, h.2 _ rfl⟩

end Audio

/-! ## Theorems: topping placement -/

namespace Scene

theorem abs_arctan_le (r : ℝ) : |Real.arctan r| ≤ |r| := by
  have pos : ∀ t : ℝ, 0 < t → Real.arctan t < t := by
    intro t ht
    have h0 : 0 < Real.arctan t := by
      have := Real.arctan_strictMono ht
      rwa [Real.arctan_zero] at this
    have := Real.lt_tan h0 (Real.arctan_lt_pi_div_two t)
    rwa [Real.tan_arctan] at this
  have nonneg : ∀ t : ℝ, 0 < t → 0 < Real.arctan t := by
    intro t ht
    have := Real.arctan_strictMono ht
    rwa [Real.arctan_zero] at this
  rcases lt_trichotomy r 0 with h | h | h
  · have h1 := pos (-r) (by linarith)
    have h2 := nonneg (-r) (by linarith)
    rw [Real.arctan_neg] at h1 h2
    rw [abs_of_neg (by linarith), abs_of_neg h]
    linarith
  · rw [h, Real.arctan_zero]
  · rw [abs_of_pos (nonneg r h), abs_of_pos h]
    exact le_of_lt (pos r h)

theorem arg_eq_arctan_of_pos (x y : ℝ) (hx : 0 < x) :
    Complex.arg ⟨x, y⟩ = Real.arctan (y / x) := by
  have h1 : |Complex.arg ⟨x, y⟩| < Real.pi / 2 :=
    Complex.abs_arg_lt_pi_div_two_iff.mpr (Or.inl hx)
  have h2 : Real.tan (Complex.arg ⟨x, y⟩) = y / x := Complex.tan_arg _
  exact (Real.arctan_eq_of_tan_eq h2 ⟨(abs_lt.mp h1).1, (abs_lt.mp h1).2⟩).symm

theorem withinSlice_of_bounds (x y : ℝ) (hx : 0 < x) (hy : |y| * 100 ≤ 44 * x)
    (hd : x * x + y * y < (32 / 10) ^ 2) :
    withinSlice (fun b a => Complex.arg ⟨a, b⟩) Real.sqrt Real.pi (x, y) = true := by
  have harc : |Real.arctan (y / x)| < Real.pi / 7 := by
    have h1 := abs_arctan_le (y / x)
    have h2 : |y / x| ≤ 44 / 100 := by
      rw [abs_div, abs_of_pos hx, div_le_iff₀ hx]
      linarith
    have h3 := Real.pi_gt_d2
    have h4 : (44 / 100 : ℝ) < Real.pi / 7 := by
      norm_num at h3 ⊢
      linarith
    linarith
  unfold withinSlice
  simp only [decide_eq_true_eq]
  rw [arg_eq_arctan_of_pos x y hx]
  refine ⟨(Real.sqrt_lt' (by norm_num)).mpr hd, ?_, (abs_lt.mp harc).2⟩
  have := (abs_lt.mp harc).1
  show Real.arctan (y / x) > -Real.pi / 7
  rw [neg_div]
  exact this

theorem withinSlice_sprinklePositions :
    ∀ pos ∈ sprinklePositions ℝ,
      withinSlice (fun b a => Complex.arg ⟨a, b⟩) Real.sqrt Real.pi pos = true := by
  intro pos hpos
  simp only [sprinklePositions, List.mem_cons, List.mem_singleton, List.not_mem_nil,
    or_false] at hpos
  rcases hpos with rfl | rfl | rfl | rfl | rfl
  · exact withinSlice_of_bounds _ _ (by norm_num) (by norm_num [abs_of_pos]) (by norm_num)
  · exact withinSlice_of_bounds _ _ (by norm_num) (by norm_num [abs_of_pos]) (by norm_num)
  · exact withinSlice_of_bounds _ _ (by norm_num) (by norm_num [abs_of_pos]) (by norm_num)
  · exact withinSlice_of_bounds _ _ (by norm_num) (by norm_num [abs_of_pos]) (by norm_num)
  · exact withinSlice_of_bounds _ _ (by norm_num) (by norm_num [abs_of_pos]) (by norm_num)

end Scene

namespace Scene

/-- C11, as stated, fails: over the reals, with `Math.atan2(y, x)` the argument
of the point (x, y), none of the five hard-coded topping positions fails the
placement test, and the number of topping meshes added is not below five. -/
theorem no_sprinkle_position_dropped :
    (¬ ∃ pos ∈ sprinklePositions ℝ,
        withinSlice (fun y x => Complex.arg ⟨x, y⟩) Real.sqrt Real.pi pos = false) ∧
      ¬ (createSprinkles (fun y x => Complex.arg ⟨x, y⟩) Real.sqrt Real.pi).length < 5 := by
  constructor
  · rintro ⟨pos, hpos, hfalse⟩
    rw [withinSlice_sprinklePositions pos hpos] at hfalse
    exact absurd hfalse (by decide)
  · have h : createSprinkles (fun y x => Complex.arg ⟨x, y⟩) Real.sqrt Real.pi
        = sprinklePositions ℝ :=
      List.filter_eq_self.mpr withinSlice_sprinklePositions
    rw [h]
    simp [sprinklePositions]

/-- C11, amended: over the reals, each of the five hard-coded topping positions
of `createSprinkles` satisfies distance < 3.2 and -π/7 < atan2(y, x) < π/7, so
the call adds all five topping meshes, in the order of the list. -/
theorem createSprinkles_keeps_all_five :
    (∀ pos ∈ sprinklePositions ℝ,
        Real.sqrt (pos.1 * pos.1 + pos.2 * pos.2) < 32 / 10 ∧
          Complex.arg ⟨pos.1, pos.2⟩ > -Real.pi / 7 ∧
          Complex.arg ⟨pos.1, pos.2⟩ < Real.pi / 7) ∧
      createSprinkles (fun y x => Complex.arg ⟨x, y⟩) Real.sqrt Real.pi
        = [(15 / 10, 5 / 10), (18 / 10, -(2 / 10)), (25 / 10, 8 / 10), (22 / 10, -(9 / 10)),
            (28 / 10, 0)] ∧
      (createSprinkles (fun y x => Complex.arg ⟨x, y⟩) Real.sqrt Real.pi).length = 5 := by
  have h : createSprinkles (fun y x => Complex.arg ⟨x, y⟩) Real.sqrt Real.pi
      = sprinklePositions ℝ :=
    List.filter_eq_self.mpr withinSlice_sprinklePositions
  refine ⟨?_, h, ?_⟩
  · intro pos hpos
    have := withinSlice_sprinklePositions pos hpos
    unfold withinSlice at this
    simpa only [decide_eq_true_eq] using this
  · rw [h]
    simp [sprinklePositions]

end Scene

/-! ## Theorems: the pinch branch -/

namespace Scene

theorem dragRotate_initialPinchDistance (e : PointerEvent) (s : SceneState) :
    (dragRotate e s).initialPinchDistance = s.initialPinchDistance := by
  unfold dragRotate
  split <;> rfl

theorem onPointerMove_of_no_pinch_start (sqrt : ℚ → ℚ) (e : PointerEvent) (s : SceneState)
    (h : s.initialPinchDistance = 0) :
    onPointerMove sqrt e s = dragRotate e { s with pointers := updatePointer e s.pointers } := by
  unfold onPointerMove
  simp only
  rw [if_neg]
  rintro ⟨-, hgt⟩
  rw [h] at hgt
  exact lt_irrefl _ hgt

theorem handle_initialPinchDistance (sqrt : ℚ → ℚ) (s : SceneState) (ev : SceneEvent)
    (h : s.initialPinchDistance = 0) : (handle sqrt s ev).initialPinchDistance = 0 := by
  cases ev with
  | pointerDown e =>
    simp only [handle, onPointerDown]
    split <;> exact h
  | pointerMove e =>
    simp only [handle]
    rw [onPointerMove_of_no_pinch_start sqrt e s h, dragRotate_initialPinchDistance]
    exact h
  | pointerUp e =>
    simp only [handle, onPointerUp]
    split <;> split <;> first | exact h | rfl
  | wheel deltaY => exact h
  | sliderInput value =>
    simp only [handle, zoomSliderInput]
    split <;> exact h

theorem runEvents_initialPinchDistance (sqrt : ℚ → ℚ) (evs : List SceneEvent) :
    ∀ s : SceneState, s.initialPinchDistance = 0 →
      (runEvents sqrt s evs).initialPinchDistance = 0 := by
  induction evs with
  | nil => intro s h; exact h
  | cons ev rest ih =>
    intro s h
    exact ih (handle sqrt s ev) (handle_initialPinchDistance sqrt s ev h)

/-- C12: in every state reached from the initial state by any sequence of
pointer-down, pointer-move, pointer-up and wheel events (slider inputs may be
mixed in as well), `initialPinchDistance` is 0; so the guard of the pinch
branch of `onPointerMove` is false there, a pointer-move event does only the
pointer update and the drag block, and it leaves `currentCameraZ`,
`camera.position.z` and `initialPinchDistance` as they were, whatever pointers
are active and whatever the event carries. -/
theorem pinch_branch_never_entered (sqrt : ℚ → ℚ) (evs : List SceneEvent) (e : PointerEvent) :
    (runEvents sqrt initialScene evs).initialPinchDistance = 0 ∧
      ¬ ((updatePointer e (runEvents sqrt initialScene evs).pointers).length = 2 ∧
        (runEvents sqrt initialScene evs).initialPinchDistance > 0) ∧
      onPointerMove sqrt e (runEvents sqrt initialScene evs) =
        dragRotate e
          { runEvents sqrt initialScene evs with
            pointers := updatePointer e (runEvents sqrt initialScene evs).pointers } ∧
      (onPointerMove sqrt e (runEvents sqrt initialScene evs)).currentCameraZ =
        (runEvents sqrt initialScene evs).currentCameraZ ∧
      (onPointerMove sqrt e (runEvents sqrt initialScene evs)).cameraZ =
        (runEvents sqrt initialScene evs).cameraZ ∧
      (onPointerMove sqrt e (runEvents sqrt initialScene evs)).initialPinchDistance = 0 := by
  have h0 : (runEvents sqrt initialScene evs).initialPinchDistance = 0 :=
    runEvents_initialPinchDistance sqrt evs initialScene rfl
  have hm := onPointerMove_of_no_pinch_start sqrt e _ h0
  refine ⟨h0, ?_, hm, ?_, ?_, ?_⟩
  · rintro ⟨-, hgt⟩
    rw [h0] at hgt
    exact lt_irrefl _ hgt
  · rw [hm, dragRotate_currentCameraZ]
  · rw [hm, dragRotate_cameraZ]
  · rw [hm, dragRotate_initialPinchDistance]
    exact h0

end Scene
